import Mathlib

/-
Shallow embedding of the systray event-dispatch core (src/src/lib.rs).

The platform window (api::api::Window) is an external collaborator: each of
its fallible operations is modelled by passing the result the platform layer
returns for that call as an explicit parameter of type Except SystrayError
Unit.  The mpsc channel Receiver is modelled by two Application fields:
pending, the FIFO list of SystrayEvent records already sent and not yet
received (std::sync::mpsc buffers sent messages, and recv returns buffered
messages even after every Sender has been dropped), and connected, whether
the producer end still exists.  recv on an empty connected channel blocks,
which the model renders as the value none.  For recv_timeout, pending models
the records that become available within the wait, so an empty pending list
on a connected channel is exactly the Timeout outcome.

A Callback (Box<Fn(&mut Application)>) is an opaque token : Nat; the effect
of invoking a callback is a parameter sem : Nat -> Application -> Application
of the pump functions.  The pump functions additionally return the list of
(menu id, callback token) pairs the call itself dispatched, so that
"invokes the callback exactly once" is a statement about the result rather
than about the defining equation.

The menu_idx counter is a u32 in the source; the model uses Nat without a
wrap, which is exact for every execution of fewer than 2^32 successful adds
(a checked build of the source panics at the increment beyond that point, so
no id is ever returned twice by a completed call).
-/

namespace Systray

/-- Error taxonomy of the library (enum SystrayError, lib.rs lines 26-32). -/
inductive SystrayError where
  | OsError (detail : String)
  | NotImplementedError
  | Disconnected
  | Timeout
deriving DecidableEq, Repr

/-- Error type of Receiver::recv (std::sync::mpsc::RecvError). -/
inductive RecvError where
  | mk
deriving DecidableEq, Repr

/-- Error type of Receiver::recv_timeout (std::sync::mpsc::RecvTimeoutError). -/
inductive RecvTimeoutError where
  | Timeout
  | Disconnected
deriving DecidableEq, Repr

/-- impl From<RecvError> for SystrayError (lib.rs lines 49-53). -/
def SystrayError.fromRecvError : RecvError → SystrayError :=
  fun _ => SystrayError.Disconnected

/-- impl From<RecvTimeoutError> for SystrayError (lib.rs lines 54-61). -/
def SystrayError.fromRecvTimeoutError : RecvTimeoutError → SystrayError
  | RecvTimeoutError.Timeout => SystrayError.Timeout
  | RecvTimeoutError.Disconnected => SystrayError.Disconnected

/-- A SystrayEvent carries exactly one field, menu_index : u32 (lib.rs 34-36);
the model identifies the event with that index. -/
abbrev SystrayEvent := Nat

/-- The HashMap<u32, Callback> registry, as an association list from menu id
to callback token.  The operations below mirror HashMap::contains_key,
HashMap::remove and HashMap::insert (insert replaces any entry at the key). -/
abbrev Registry := List (Nat × Nat)

/-- HashMap::remove on the model registry: erase the entry at key k. -/
def eraseKey : Registry → Nat → Registry
  | [], _ => []
  | p :: t, k => if p.1 = k then eraseKey t k else p :: eraseKey t k

/-- HashMap::insert on the model registry: the new entry replaces any entry
at the same key. -/
def insertKey (m : Registry) (k v : Nat) : Registry :=
  (k, v) :: eraseKey m k

/-- HashMap lookup on the model registry (the value HashMap::remove hands
back, and the test HashMap::contains_key performs). -/
def lookupCb : Registry → Nat → Option Nat
  | [], _ => none
  | p :: t, k => if p.1 = k then some p.2 else lookupCb t k

/-- HashMap::contains_key on the model registry. -/
def containsKey (m : Registry) (k : Nat) : Bool :=
  (lookupCb m k).isSome

/-- struct Application (lib.rs lines 62-71).  window is the external
platform handle and holds no dispatch-relevant state, so it is not a field;
rx : Receiver<SystrayEvent> is modelled by pending and connected. -/
structure Application where
  menu_idx : Nat
  callback : Registry
  pending : List SystrayEvent
  connected : Bool
deriving DecidableEq, Repr

/-- Application::new on platform success (lib.rs 80-91): id counter 0, empty
registry, fresh empty connected channel. -/
def newApp : Application :=
  { menu_idx := 0, callback := [], pending := [], connected := true }

/-- Application::add_menu_item (lib.rs 93-102).  pr is the result the
platform layer returns from window.add_menu_entry(idx, item_name); cb is the
token of the supplied closure.  On platform failure the function returns the
error early and self is left untouched; on success it stores the callback
under idx, increments the counter and returns Ok(idx). -/
def add_menu_item (pr : Except SystrayError Unit) (cb : Nat) (s : Application) :
    Except SystrayError Nat × Application :=
  let idx := s.menu_idx
  match pr with
  | Except.error e => (Except.error e, s)
  | Except.ok _ =>
      (Except.ok idx,
        { s with callback := insertKey s.callback idx cb, menu_idx := s.menu_idx + 1 })

/-- Application::add_menu_separator (lib.rs 104-111): same discipline as
add_menu_item but no callback is stored. -/
def add_menu_separator (pr : Except SystrayError Unit) (s : Application) :
    Except SystrayError Nat × Application :=
  let idx := s.menu_idx
  match pr with
  | Except.error e => (Except.error e, s)
  | Except.ok _ => (Except.ok idx, { s with menu_idx := s.menu_idx + 1 })

/-- Application::set_icon_from_file (lib.rs 113-115): pass-through of the
platform result; &self receiver, so the application state is returned
unchanged. -/
def set_icon_from_file (pr : Except SystrayError Unit) (file : String)
    (s : Application) : Except SystrayError Unit × Application :=
  (pr, s)

/-- Application::set_icon_from_resource (lib.rs 117-119). -/
def set_icon_from_resource (pr : Except SystrayError Unit) (resource : String)
    (s : Application) : Except SystrayError Unit × Application :=
  (pr, s)

/-- Application::set_tooltip (lib.rs 125-127). -/
def set_tooltip (pr : Except SystrayError Unit) (tooltip : String)
    (s : Application) : Except SystrayError Unit × Application :=
  (pr, s)

/-- Application::shutdown (lib.rs 121-123): pass-through teardown call. -/
def shutdown (pr : Except SystrayError Unit) (s : Application) :
    Except SystrayError Unit × Application :=
  (pr, s)

/-- Application::quit (lib.rs 129-131): fire-and-forget signal to the
platform layer; no local state change and no result. -/
def quit (s : Application) : Application :=
  s

/-- Receiver::recv on the modelled channel: a buffered record is returned
even if the producer is gone; an empty disconnected channel fails with
RecvError; an empty connected channel blocks (none). -/
def recv (s : Application) : Option (Except RecvError (SystrayEvent × Application)) :=
  match s.pending with
  | e :: rest => some (Except.ok (e, { s with pending := rest }))
  | [] => if s.connected then none else some (Except.error RecvError.mk)

/-- Receiver::recv_timeout: a buffered record is returned at once; an empty
disconnected channel fails with Disconnected; on an empty connected channel
the deadline elapses and the call fails with Timeout (pending models the
records available within the wait).  d is the duration argument; it bounds
wall-clock time only and does not select the outcome. -/
def recv_timeout (d : Nat) (s : Application) :
    Except RecvTimeoutError (SystrayEvent × Application) :=
  match s.pending with
  | e :: rest => Except.ok (e, { s with pending := rest })
  | [] =>
      if s.connected then Except.error RecvTimeoutError.Timeout
      else Except.error RecvTimeoutError.Disconnected

/-- The dispatch body shared verbatim by both pump functions (lib.rs 136-140
and 154-158): if the received menu_index has a registered callback, remove
it, invoke it on the application, and reinsert it under the same id
afterwards; otherwise do nothing.  Also returns the list of invocations this
dispatch performed itself. -/
def dispatch (sem : Nat → Application → Application) (k : Nat) (s : Application) :
    Application × List (Nat × Nat) :=
  match lookupCb s.callback k with
  | some cb =>
      let s1 := { s with callback := eraseKey s.callback k }
      let s2 := sem cb s1
      ({ s2 with callback := insertKey s2.callback k cb }, [(k, cb)])
  | none => (s, [])

/-- Application::wait_for_message (lib.rs 133-143).  none models the call
blocking forever (empty connected channel); otherwise the result carries the
new application state and the list of invocations the call performed. -/
def wait_for_message (sem : Nat → Application → Application) (s : Application) :
    Option (Except SystrayError (Application × List (Nat × Nat))) :=
  match recv s with
  | none => none
  | some (Except.error e) => some (Except.error (SystrayError.fromRecvError e))
  | some (Except.ok (msg, s1)) => some (Except.ok (dispatch sem msg s1))

/-- Application::wait_for_message_timeout (lib.rs 145-162).  The source
matches recv_timeout: Ok(msg) keeps Some(msg), Err(Timeout) keeps None, any
other error returns Err(SystrayError::from(e)); a kept Some(msg) is then
dispatched and a kept None returns Ok with nothing done. -/
def wait_for_message_timeout (sem : Nat → Application → Application) (d : Nat)
    (s : Application) : Except SystrayError (Application × List (Nat × Nat)) :=
  match recv_timeout d s with
  | Except.ok (msg, s1) => Except.ok (dispatch sem msg s1)
  | Except.error RecvTimeoutError.Timeout => Except.ok (s, [])
  | Except.error RecvTimeoutError.Disconnected =>
      Except.error (SystrayError.fromRecvTimeoutError RecvTimeoutError.Disconnected)

/-- The do-nothing callback behavior, used to instantiate the pump theorems
at concrete inputs. -/
def idCallback : Nat → Application → Application :=
  fun _ s => s

theorem lookupCb_insertKey_self (m : Registry) (k v : Nat) :
    lookupCb (insertKey m k v) k = some v := by
  simp [lookupCb, insertKey]

theorem lookupCb_eraseKey_self (m : Registry) (k : Nat) :
    lookupCb (eraseKey m k) k = none := by
  induction m with
  | nil => rfl
  | cons p t ih => by_cases h : p.1 = k <;> simp [eraseKey, lookupCb, h, ih]

theorem lookupCb_eraseKey_ne (m : Registry) (i k : Nat) (h : k ≠ i) :
    lookupCb (eraseKey m i) k = lookupCb m k := by
  induction m with
  | nil => rfl
  | cons p t ih =>
      by_cases hp : p.1 = i
      · have hpk : p.1 ≠ k := by rw [hp]; exact fun hh => h hh.symm
        simp [eraseKey, lookupCb, hp, hpk, Ne.symm h, ih]
      · by_cases hpk : p.1 = k <;> simp [eraseKey, lookupCb, hp, hpk, h, ih]

theorem lookupCb_insertKey_ne (m : Registry) (i k v : Nat) (h : k ≠ i) :
    lookupCb (insertKey m i v) k = lookupCb m k := by
  have hik : i ≠ k := fun hh => h hh.symm
  simp [insertKey, lookupCb, hik, lookupCb_eraseKey_ne m i k h]

theorem containsKey_insertKey (m : Registry) (i k v : Nat) :
    containsKey (insertKey m i v) k = true ↔ (k = i ∨ containsKey m k = true) := by
  by_cases h : k = i
  · subst h
    simp [containsKey, lookupCb_insertKey_self]
  · simp [containsKey, lookupCb_insertKey_ne m i k v h, h]

theorem containsKey_eraseKey (m : Registry) (i k : Nat) :
    containsKey (eraseKey m i) k = true ↔ (containsKey m k = true ∧ k ≠ i) := by
  by_cases h : k = i
  · subst h
    simp [containsKey, lookupCb_eraseKey_self]
  · simp [containsKey, lookupCb_eraseKey_ne m i k h, h]

theorem containsKey_of_lookupCb {m : Registry} {k cb : Nat}
    (h : lookupCb m k = some cb) : containsKey m k = true := by
  simp [containsKey, h]

theorem containsKey_false_of_lookupCb_none {m : Registry} {k : Nat}
    (h : lookupCb m k = none) : containsKey m k = false := by
  simp [containsKey, h]

/-- C1: a pump call (either variant) that receives an ActivationRecord for a
registered id removes the callback, invokes it exactly once (the call's own
invocation list is the singleton [(i, cb)]), reinserts it afterwards, and the
registry contains id i after the call returns. -/
theorem C1_dispatch_roundtrip (sem : Nat → Application → Application)
    (s : Application) (i cb : Nat) (rest : List SystrayEvent) (d : Nat)
    (hreg : lookupCb s.callback i = some cb) (hp : s.pending = i :: rest) :
    wait_for_message sem s =
      some (Except.ok
        ({ sem cb { s with pending := rest, callback := eraseKey s.callback i } with
            callback :=
              insertKey
                (sem cb { s with pending := rest, callback := eraseKey s.callback i }).callback
                i cb },
          [(i, cb)]))
    ∧ wait_for_message_timeout sem d s =
        Except.ok
          ({ sem cb { s with pending := rest, callback := eraseKey s.callback i } with
              callback :=
                insertKey
                  (sem cb { s with pending := rest, callback := eraseKey s.callback i }).callback
                  i cb },
            [(i, cb)])
    ∧ lookupCb
        (insertKey
          (sem cb { s with pending := rest, callback := eraseKey s.callback i }).callback
          i cb) i = some cb := by
  refine ⟨?_, ?_, lookupCb_insertKey_self _ i cb⟩
  · simp [wait_for_message, recv, hp, dispatch, hreg]
  · simp [wait_for_message_timeout, recv_timeout, hp, dispatch, hreg]

/-- C1 witness: a registered id 0 with callback token 7, one pending record
for id 0, dispatched by wait_for_message with the do-nothing callback. -/
theorem C1_dispatch_roundtrip_witness :
    wait_for_message idCallback
        { menu_idx := 1, callback := [(0, 7)], pending := [0], connected := true } =
      some (Except.ok
        ({ menu_idx := 1, callback := [(0, 7)], pending := [], connected := true },
          [(0, 7)])) :=
  (C1_dispatch_roundtrip idCallback
    { menu_idx := 1, callback := [(0, 7)], pending := [0], connected := true }
    0 7 [] 3 rfl rfl).1

/-- C3: if the platform layer rejects the add call, add_menu_item and
add_menu_separator return that error and leave the application (counter and
registry included) unchanged. -/
theorem C3_add_failure_frame (e : SystrayError) (cb : Nat) (s : Application) :
    add_menu_item (Except.error e) cb s = (Except.error e, s)
    ∧ add_menu_separator (Except.error e) s = (Except.error e, s) :=
  ⟨rfl, rfl⟩

/-- C4: with no pending record on a connected channel, the timed pump
returns success for every duration, with no invocation and the application
unchanged. -/
theorem C4_timeout_is_success (sem : Nat → Application → Application) (d : Nat)
    (s : Application) (hp : s.pending = []) (hc : s.connected = true) :
    wait_for_message_timeout sem d s = Except.ok (s, []) := by
  simp [wait_for_message_timeout, recv_timeout, hp, hc]

/-- C4 witness: the fresh application with a timeout of 7. -/
theorem C4_timeout_is_success_witness :
    wait_for_message_timeout idCallback 7 newApp = Except.ok (newApp, []) :=
  C4_timeout_is_success idCallback 7 newApp rfl rfl

/-- C5 counterexample: on an elapsed deadline with no record available
(empty connected channel), wait_for_message_timeout returns Ok, not the
Timeout error kind the claim asserts it surfaces. -/
theorem C5_counterexample :
    wait_for_message_timeout idCallback 5 newApp = Except.ok (newApp, [])
    ∧ wait_for_message_timeout idCallback 5 newApp ≠ Except.error SystrayError.Timeout :=
  ⟨rfl, fun h => nomatch h⟩

/-- C5 amended: when a timed pump call's deadline elapses with no record
available it returns success; the Timeout error kind, though defined and
produced by the From conversion on RecvTimeoutError, is never surfaced by
wait_for_message_timeout, and wait_for_message never returns it either. -/
theorem C5_timeout_never_surfaced (sem : Nat → Application → Application)
    (d : Nat) (s : Application) :
    (s.pending = [] → s.connected = true →
      wait_for_message_timeout sem d s = Except.ok (s, []))
    ∧ wait_for_message_timeout sem d s ≠ Except.error SystrayError.Timeout
    ∧ wait_for_message sem s ≠ some (Except.error SystrayError.Timeout) := by
  refine ⟨fun hp hc => by simp [wait_for_message_timeout, recv_timeout, hp, hc], ?_, ?_⟩
  · match hp : s.pending with
    | e :: rest => simp [wait_for_message_timeout, recv_timeout, hp]
    | [] =>
        match hc : s.connected with
        | true => simp [wait_for_message_timeout, recv_timeout, hp, hc]
        | false => simp [wait_for_message_timeout, recv_timeout, hp, hc,
            SystrayError.fromRecvTimeoutError]
  · match hp : s.pending with
    | e :: rest => simp [wait_for_message, recv, hp]
    | [] =>
        match hc : s.connected with
        | true => simp [wait_for_message, recv, hp, hc]
        | false => simp [wait_for_message, recv, hp, hc, SystrayError.fromRecvError]

/-- C5 witness: the no-hypothesis conjuncts of the amended theorem at a
concrete input. -/
theorem C5_timeout_never_surfaced_witness :
    wait_for_message_timeout idCallback 5 newApp ≠ Except.error SystrayError.Timeout :=
  (C5_timeout_never_surfaced idCallback 5 newApp).2.1

/-- C6: a pump call (either variant) that receives a record whose id has no
registered callback invokes nothing, discards the record, and returns
success. -/
theorem C6_unregistered_silently_discarded (sem : Nat → Application → Application)
    (s : Application) (i : Nat) (rest : List SystrayEvent) (d : Nat)
    (hnone : lookupCb s.callback i = none) (hp : s.pending = i :: rest) :
    wait_for_message sem s = some (Except.ok ({ s with pending := rest }, []))
    ∧ wait_for_message_timeout sem d s = Except.ok ({ s with pending := rest }, []) := by
  constructor
  · simp [wait_for_message, recv, hp, dispatch, hnone]
  · simp [wait_for_message_timeout, recv_timeout, hp, dispatch, hnone]

/-- C6 witness: a record for the never-registered id 9 on an application
with an empty registry. -/
theorem C6_unregistered_silently_discarded_witness :
    wait_for_message idCallback
        { menu_idx := 0, callback := [], pending := [9], connected := true } =
      some (Except.ok
        ({ menu_idx := 0, callback := [], pending := [], connected := true }, [])) :=
  (C6_unregistered_silently_discarded idCallback
    { menu_idx := 0, callback := [], pending := [9], connected := true }
    9 [] 4 rfl rfl).1

/-- C7 counterexample: with the producer gone but a record still buffered in
the channel, wait_for_message returns Ok (it dispatches the buffered
record), not the Disconnected error the claim asserts. -/
theorem C7_counterexample :
    wait_for_message idCallback
        { menu_idx := 0, callback := [], pending := [3], connected := false } =
      some (Except.ok
        ({ menu_idx := 0, callback := [], pending := [], connected := false }, []))
    ∧ wait_for_message idCallback
        { menu_idx := 0, callback := [], pending := [3], connected := false } ≠
      some (Except.error SystrayError.Disconnected) :=
  ⟨rfl, fun h => nomatch h⟩

/-- C7 amended: once the producer is gone and no buffered record remains,
wait_for_message returns the Disconnected error, and the timed pump returns
it for every duration, rather than blocking forever. -/
theorem C7_disconnected (sem : Nat → Application → Application) (d : Nat)
    (s : Application) (hc : s.connected = false) (hp : s.pending = []) :
    wait_for_message sem s = some (Except.error SystrayError.Disconnected)
    ∧ wait_for_message_timeout sem d s = Except.error SystrayError.Disconnected := by
  constructor
  · simp [wait_for_message, recv, hp, hc, SystrayError.fromRecvError]
  · simp [wait_for_message_timeout, recv_timeout, hp, hc,
      SystrayError.fromRecvTimeoutError]

/-- C7 witness: a drained disconnected channel. -/
theorem C7_disconnected_witness :
    wait_for_message idCallback
        { menu_idx := 2, callback := [(0, 7)], pending := [], connected := false } =
      some (Except.error SystrayError.Disconnected) :=
  (C7_disconnected idCallback 1
    { menu_idx := 2, callback := [(0, 7)], pending := [], connected := false }
    rfl rfl).1

/-- C9: the three configuration calls take the application by shared
reference, pass the platform result through, and leave all local state (the
counter, the registry, and the channel endpoint) unchanged on success and on
failure alike. -/
theorem C9_config_passthrough (pr : Except SystrayError Unit)
    (file resource tooltip : String) (s : Application) :
    set_icon_from_file pr file s = (pr, s)
    ∧ set_icon_from_resource pr resource s = (pr, s)
    ∧ set_tooltip pr tooltip s = (pr, s) :=
  ⟨rfl, rfl, rfl⟩

/-- One menu-construction call: add_menu_item with callback token cb, or
add_menu_separator. -/
inductive AddOp where
  | item (cb : Nat)
  | sep
deriving DecidableEq, Repr

/-- Perform one add call whose platform call is accepted. -/
def runAdd (op : AddOp) (s : Application) : Except SystrayError Nat × Application :=
  match op with
  | AddOp.item cb => add_menu_item (Except.ok ()) cb s
  | AddOp.sep => add_menu_separator (Except.ok ()) s

/-- Perform a sequence of add calls, each accepted by the platform layer (so
each call succeeds), collecting the returned ids in call order. -/
def runAdds : List AddOp → Application → List Nat × Application
  | [], s => ([], s)
  | op :: ops, s =>
      match runAdd op s with
      | (Except.ok i, s1) =>
          let (ids, s2) := runAdds ops s1
          (i :: ids, s2)
      | (Except.error _, s1) => runAdds ops s1

theorem runAdds_spec (ops : List AddOp) :
    ∀ s : Application,
      (runAdds ops s).1 = List.range' s.menu_idx ops.length
      ∧ (runAdds ops s).2.menu_idx = s.menu_idx + ops.length := by
  induction ops with
  | nil => intro s; simp [runAdds]
  | cons op ops ih =>
      intro s
      cases op with
      | item cb =>
          have h := ih
            { s with callback := insertKey s.callback s.menu_idx cb,
                     menu_idx := s.menu_idx + 1 }
          simp only [runAdds, runAdd, add_menu_item, List.length_cons] at h ⊢
          rw [List.range'_succ]

          refine ⟨?_, ?_⟩
          · simp only [h.1]
          · simp only [h.2]
            omega
      | sep =>
          have h := ih { s with menu_idx := s.menu_idx + 1 }
          simp only [runAdds, runAdd, add_menu_separator, List.length_cons] at h ⊢
          rw [List.range'_succ]
          refine ⟨?_, ?_⟩
          · simp only [h.1]
          · simp only [h.2]
            omega

/-- C2: a sequence of N add calls on a fresh Application, each accepted by
the platform layer, returns exactly the ids 0, 1, ..., N-1 in call order
with no duplicates; in general each call returns the counter value at call
time and increments the counter by exactly one. -/
theorem C2_ids_are_initial_segment (ops : List AddOp) :
    (runAdds ops newApp).1 = List.range ops.length
    ∧ ((runAdds ops newApp).1).Nodup
    ∧ (∀ s : Application,
        (runAdds ops s).1 = List.range' s.menu_idx ops.length
        ∧ (runAdds ops s).2.menu_idx = s.menu_idx + ops.length)
    ∧ (∀ (op : AddOp) (s : Application),
        (runAdd op s).1 = Except.ok s.menu_idx
        ∧ (runAdd op s).2.menu_idx = s.menu_idx + 1) := by
  have hfresh := runAdds_spec ops newApp
  have hrange : (runAdds ops newApp).1 = List.range ops.length := by
    rw [hfresh.1, List.range_eq_range']
    simp [newApp]
  refine ⟨hrange, ?_, runAdds_spec ops, ?_⟩
  · rw [hrange]; exact List.nodup_range ops.length
  · intro op s
    cases op with
    | item cb => exact ⟨rfl, rfl⟩
    | sep => exact ⟨rfl, rfl⟩

/-- An execution history: the ids returned by successful add_menu_item calls
and by successful add_menu_separator calls, most recent first. -/
structure Hist where
  items : List Nat
  seps : List Nat
deriving DecidableEq, Repr

/-- Reachability by public operations, observed outside callback
invocations.  Steps h s h2 s2 holds when application state s with history h
can evolve to state s2 with history h2 by a sequence of public operations;
each constructor performs one operation and continues.  Operations proven to
leave the local state unchanged need no constructor: failed adds (theorem
C3_add_failure_frame), the configuration calls (theorem
C9_config_passthrough), shutdown and quit.  produce and disconnectStep model
the external producer thread appending a record and going away.  The two
pump constructors mirror the dispatch body shared by wait_for_message and
wait_for_message_timeout; in pumpDispatch the effect of the invoked callback
is itself an arbitrary public-operation run (the nested hbody) starting from
the state in which the callback has been removed, followed by the
reinsertion of the callback under the same id, exactly as in dispatch. -/
inductive Steps : Hist → Application → Hist → Application → Prop where
  | refl (h : Hist) (s : Application) : Steps h s h s
  | addItem (h : Hist) (s : Application) (cb i : Nat) (s1 : Application)
      (h2 : Hist) (s2 : Application)
      (hadd : add_menu_item (Except.ok ()) cb s = (Except.ok i, s1))
      (hrest : Steps ⟨i :: h.items, h.seps⟩ s1 h2 s2) :
      Steps h s h2 s2
  | addSep (h : Hist) (s : Application) (i : Nat) (s1 : Application)
      (h2 : Hist) (s2 : Application)
      (hadd : add_menu_separator (Except.ok ()) s = (Except.ok i, s1))
      (hrest : Steps ⟨h.items, i :: h.seps⟩ s1 h2 s2) :
      Steps h s h2 s2
  | produce (h : Hist) (s : Application) (e : SystrayEvent)
      (h2 : Hist) (s2 : Application)
      (hrest : Steps h { s with pending := s.pending ++ [e] } h2 s2) :
      Steps h s h2 s2
  | disconnectStep (h : Hist) (s : Application) (h2 : Hist) (s2 : Application)
      (hrest : Steps h { s with connected := false } h2 s2) :
      Steps h s h2 s2
  | pumpDiscard (h : Hist) (s : Application) (i : Nat) (rest : List SystrayEvent)
      (h2 : Hist) (s2 : Application)
      (hnone : lookupCb s.callback i = none) (hp : s.pending = i :: rest)
      (hrest : Steps h { s with pending := rest } h2 s2) :
      Steps h s h2 s2
  | pumpDispatch (h : Hist) (s : Application) (i cb : Nat)
      (rest : List SystrayEvent) (hm : Hist) (sm : Application)
      (h2 : Hist) (s2 : Application)
      (hsome : lookupCb s.callback i = some cb) (hp : s.pending = i :: rest)
      (hbody : Steps h { s with pending := rest, callback := eraseKey s.callback i } hm sm)
      (hrest : Steps hm { sm with callback := insertKey sm.callback i cb } h2 s2) :
      Steps h s h2 s2

/-- Allocation invariant along any public-operation run: the history only
grows, the counter is monotone, every id allocated during the run lies in
[menu_idx before, menu_idx after), item ids and separator ids allocated
during the run are disjoint, and the registry keys afterwards are exactly
the keys before plus the item ids allocated during the run. -/
theorem Steps.alloc {h : Hist} {s : Application} {h2 : Hist} {s2 : Application}
    (st : Steps h s h2 s2) :
    ∃ ni ns : List Nat,
      h2.items = ni ++ h.items ∧
      h2.seps = ns ++ h.seps ∧
      s.menu_idx ≤ s2.menu_idx ∧
      (∀ k, k ∈ ni → s.menu_idx ≤ k ∧ k < s2.menu_idx) ∧
      (∀ k, k ∈ ns → s.menu_idx ≤ k ∧ k < s2.menu_idx) ∧
      (∀ k, k ∈ ni → k ∈ ns → False) ∧
      (∀ k, containsKey s2.callback k = true ↔
        (containsKey s.callback k = true ∨ k ∈ ni)) := by
  induction st with
  | refl h s =>
      exact ⟨[], [], by simp, by simp, le_refl _, by simp, by simp, by simp, by simp⟩
  | addItem h s cb i s1 h2 s2 hadd hrest ih =>
      have hadd2 : s.menu_idx = i ∧
          ({ s with callback := insertKey s.callback s.menu_idx cb,
                    menu_idx := s.menu_idx + 1 } : Application) = s1 := by
        simpa [add_menu_item, Prod.ext_iff] using hadd
      obtain ⟨rfl, rfl⟩ := hadd2
      obtain ⟨ni, ns, hitems, hseps, hmono, hbi, hbs, hdisj, hkeys⟩ := ih
      simp only at hitems hseps hmono hbi hbs hkeys
      refine ⟨ni ++ [s.menu_idx], ns, ?_, hseps, by omega, ?_, ?_, ?_, ?_⟩
      · rw [hitems]; simp
      · intro k hk
        rcases List.mem_append.mp hk with hk | hk
        · have := hbi k hk; omega
        · have : k = s.menu_idx := by simpa using hk
          omega
      · intro k hk
        have := hbs k hk; omega
      · intro k hk hks
        rcases List.mem_append.mp hk with hk | hk
        · exact hdisj k hk hks
        · have h1 : k = s.menu_idx := by simpa using hk
          have := hbs k hks; omega
      · intro k
        rw [hkeys k, containsKey_insertKey]
        constructor
        · rintro ((rfl | hc) | hni)
          · exact Or.inr (by simp)
          · exact Or.inl hc
          · exact Or.inr (by simp [hni])
        · rintro (hc | hni)
          · exact Or.inl (Or.inr hc)
          · rcases List.mem_append.mp hni with hni | hni
            · exact Or.inr hni
            · exact Or.inl (Or.inl (by simpa using hni))
  | addSep h s i s1 h2 s2 hadd hrest ih =>
      have hadd2 : s.menu_idx = i ∧
          ({ s with menu_idx := s.menu_idx + 1 } : Application) = s1 := by
        simpa [add_menu_separator, Prod.ext_iff] using hadd
      obtain ⟨rfl, rfl⟩ := hadd2
      obtain ⟨ni, ns, hitems, hseps, hmono, hbi, hbs, hdisj, hkeys⟩ := ih
      simp only at hitems hseps hmono hbi hbs hkeys
      refine ⟨ni, ns ++ [s.menu_idx], hitems, ?_, by omega, ?_, ?_, ?_, hkeys⟩
      · rw [hseps]; simp
      · intro k hk
        have := hbi k hk; omega
      · intro k hk
        rcases List.mem_append.mp hk with hk | hk
        · have := hbs k hk; omega
        · have : k = s.menu_idx := by simpa using hk
          omega
      · intro k hk hks
        rcases List.mem_append.mp hks with hks | hks
        · exact hdisj k hk hks
        · have h1 : k = s.menu_idx := by simpa using hks
          have := hbi k hk; omega
  | produce h s e h2 s2 hrest ih =>
      obtain ⟨ni, ns, hitems, hseps, hmono, hbi, hbs, hdisj, hkeys⟩ := ih
      simp only at hmono hbi hbs hkeys
      exact ⟨ni, ns, hitems, hseps, hmono, hbi, hbs, hdisj, hkeys⟩
  | disconnectStep h s h2 s2 hrest ih =>
      obtain ⟨ni, ns, hitems, hseps, hmono, hbi, hbs, hdisj, hkeys⟩ := ih
      simp only at hmono hbi hbs hkeys
      exact ⟨ni, ns, hitems, hseps, hmono, hbi, hbs, hdisj, hkeys⟩
  | pumpDiscard h s i rest h2 s2 hnone hp hrest ih =>
      obtain ⟨ni, ns, hitems, hseps, hmono, hbi, hbs, hdisj, hkeys⟩ := ih
      simp only at hmono hbi hbs hkeys
      exact ⟨ni, ns, hitems, hseps, hmono, hbi, hbs, hdisj, hkeys⟩
  | pumpDispatch h s i cb rest hm sm h2 s2 hsome hp hbody hrest ih1 ih2 =>
      obtain ⟨ni1, ns1, hitems1, hseps1, hmono1, hbi1, hbs1, hdisj1, hkeys1⟩ := ih1
      obtain ⟨ni2, ns2, hitems2, hseps2, hmono2, hbi2, hbs2, hdisj2, hkeys2⟩ := ih2
      simp only at hmono1 hbi1 hbs1 hkeys1 hmono2 hbi2 hbs2 hkeys2
      have hci : containsKey s.callback i = true := containsKey_of_lookupCb hsome
      refine ⟨ni2 ++ ni1, ns2 ++ ns1, ?_, ?_, by omega, ?_, ?_, ?_, ?_⟩
      · rw [hitems2, hitems1]; simp
      · rw [hseps2, hseps1]; simp
      · intro k hk
        rcases List.mem_append.mp hk with hk | hk
        · have := hbi2 k hk; omega
        · have := hbi1 k hk; omega
      · intro k hk
        rcases List.mem_append.mp hk with hk | hk
        · have := hbs2 k hk; omega
        · have := hbs1 k hk; omega
      · intro k hk hks
        rcases List.mem_append.mp hk with hk | hk <;>
          rcases List.mem_append.mp hks with hks | hks
        · exact hdisj2 k hk hks
        · have h1 := hbi2 k hk; have h2 := hbs1 k hks; omega
        · have h1 := hbi1 k hk; have h2 := hbs2 k hks; omega
        · exact hdisj1 k hk hks
      · intro k
        rw [hkeys2 k, containsKey_insertKey, hkeys1 k, containsKey_eraseKey]
        by_cases hki : k = i
        · subst hki
          simp [hci]
        · simp only [hki, false_or, List.mem_append]
          tauto

/-- C8: in every state reachable from construction by public operations
(observed outside callback invocations), an id is a registry key iff some
successful add_menu_item call returned it, and ids returned by
add_menu_separator are never registry keys. -/
theorem C8_registry_keys_iff_items (h2 : Hist) (s2 : Application)
    (st : Steps ⟨[], []⟩ newApp h2 s2) (k : Nat) :
    (containsKey s2.callback k = true ↔ k ∈ h2.items)
    ∧ (k ∈ h2.seps → containsKey s2.callback k = false) := by
  obtain ⟨ni, ns, hitems, hseps, hmono, hbi, hbs, hdisj, hkeys⟩ := st.alloc
  have hnew : containsKey newApp.callback k = false := rfl
  have hitems2 : h2.items = ni := by simpa using hitems
  have hseps2 : h2.seps = ns := by simpa using hseps
  constructor
  · rw [hkeys k, hnew, hitems2]
    simp
  · intro hk
    rw [hseps2] at hk
    have hni : k ∉ ni := fun hmem => hdisj k hmem hk
    have hnt : ¬ containsKey s2.callback k = true := by
      rw [hkeys k, hnew]
      rintro (hc | hc)
      · exact Bool.false_ne_true hc
      · exact hni hc
    cases hcc : containsKey s2.callback k with
    | false => rfl
    | true => exact absurd hcc hnt

/-- C8 witness: one successful add_menu_item from the fresh application;
the returned id 0 is a registry key and the (empty) separator history has no
keys. -/
theorem C8_registry_keys_iff_items_witness :
    (containsKey ([(0, 7)] : Registry) 0 = true ↔ 0 ∈ ([0] : List Nat))
    ∧ (0 ∈ ([] : List Nat) → containsKey ([(0, 7)] : Registry) 0 = false) :=
  C8_registry_keys_iff_items ⟨[0], []⟩
    { menu_idx := 1, callback := [(0, 7)], pending := [], connected := true }
    (Steps.addItem ⟨[], []⟩ newApp 7 0
      { menu_idx := 1, callback := [(0, 7)], pending := [], connected := true }
      ⟨[0], []⟩
      { menu_idx := 1, callback := [(0, 7)], pending := [], connected := true }
      rfl (Steps.refl _ _)) 0

/-- C10: when a pump call dispatches a record for registered id i, the
callback is invoked exactly once on the state from which i has been removed
(first conjunct, and the removed id resolves to nothing there, second
conjunct); along every public-operation continuation from that state —
everything the callback body can do, recursive pump calls included — i is
never a registry key (third conjunct); and any pump call made from a state
in which i is unregistered that receives another record for i performs no
dispatch and silently discards the record (fourth conjunct). -/
theorem C10_callback_removed_during_invocation
    (sem : Nat → Application → Application) (s : Application) (i cb : Nat)
    (rest : List SystrayEvent)
    (hreg : lookupCb s.callback i = some cb) (hp : s.pending = i :: rest)
    (hlt : i < s.menu_idx) :
    wait_for_message sem s =
      some (Except.ok
        ({ sem cb { s with pending := rest, callback := eraseKey s.callback i } with
            callback :=
              insertKey
                (sem cb { s with pending := rest, callback := eraseKey s.callback i }).callback
                i cb },
          [(i, cb)]))
    ∧ lookupCb (eraseKey s.callback i) i = none
    ∧ (∀ (h hb : Hist) (sb : Application),
        Steps h { s with pending := rest, callback := eraseKey s.callback i } hb sb →
        containsKey sb.callback i = false)
    ∧ (∀ (t : Application) (rest2 : List SystrayEvent),
        lookupCb t.callback i = none → t.pending = i :: rest2 →
        wait_for_message sem t = some (Except.ok ({ t with pending := rest2 }, []))
        ∧ ∀ d : Nat,
            wait_for_message_timeout sem d t = Except.ok ({ t with pending := rest2 }, [])) := by
  refine ⟨?_, lookupCb_eraseKey_self s.callback i, ?_, ?_⟩
  · simp [wait_for_message, recv, hp, dispatch, hreg]
  · intro h hb sb st
    obtain ⟨ni, ns, hitems, hseps, hmono, hbi, hbs, hdisj, hkeys⟩ := st.alloc
    simp only at hbi hkeys
    have h1 : containsKey (eraseKey s.callback i) i = false :=
      containsKey_false_of_lookupCb_none (lookupCb_eraseKey_self s.callback i)
    have hnt : ¬ containsKey sb.callback i = true := by
      rw [hkeys i, h1]
      rintro (hc | hc)
      · exact Bool.false_ne_true hc
      · have := hbi i hc; omega
    cases hcc : containsKey sb.callback i with
    | false => rfl
    | true => exact absurd hcc hnt
  · intro t rest2 hnone hp2
    constructor
    · simp [wait_for_message, recv, hp2, dispatch, hnone]
    · intro d
      simp [wait_for_message_timeout, recv_timeout, hp2, dispatch, hnone]

/-- C10 witness: with id 0 registered (token 5, counter 1) and records for
id 0 pending, a recursive pump call made while the callback is out of the
registry discards the record with no dispatch. -/
theorem C10_callback_removed_during_invocation_witness :
    wait_for_message idCallback
        { menu_idx := 1, callback := [], pending := [0], connected := true } =
      some (Except.ok
        ({ menu_idx := 1, callback := [], pending := [], connected := true }, [])) :=
  ((C10_callback_removed_during_invocation idCallback
      { menu_idx := 1, callback := [(0, 5)], pending := [0], connected := true }
      0 5 [] rfl rfl (by decide)).2.2.2
    { menu_idx := 1, callback := [], pending := [0], connected := true }
    [] rfl rfl).1

end Systray
